import Mathlib

/-!
Shallow embedding of the PDF-link discovery core of the coloring-book
repository: the three detection strategies, the discovery orchestrator,
the adapter store with domain-generalizing lookup, and the scrape facade.

Conventions of the embedding:
* Every confidence constant in the source (0.5, 0.65, 0.05, ...) is an
  exact multiple of 0.01, so confidences are modelled in exact hundredths:
  the natural number `c` stands for the real value `c / 100`.  The scaling
  is order-preserving, so comparisons, `min`-caps and the 0.5 floor are
  unchanged; this is the exact-arithmetic reading of the formulas (the
  source's floating-point sums can differ by < 1e-15, which no comparison
  in the code can observe at these constants).
* String primitives that the source uses (`includes`, `split`, `trim`,
  `startsWith`, `endsWith`, `toLowerCase`) are implemented structurally on
  the character list of the string, with the exact JS semantics needed.
* JavaScript `Set` insertion (deduplication keeping the first occurrence)
  is modelled by `dedupFirst`.
* `Array.prototype.sort` is stable (ES2019), so `sort(cmp)[0]` is the first
  element of the list that is maximal for the comparator; this is modelled
  by `firstMax`, a left fold keeping the first strictly-maximal element.
* Asynchronous collaborators (filesystem read, page fetch, the headless
  browser) are modelled as explicit inputs: a fallible step is an
  `Except String` value, and the URL lists a browser session would collect
  are passed as arguments to the pure remainder of each function.
-/

namespace ColoringBook

-- `Except` results are compared in concrete instances below.
deriving instance DecidableEq for Except

/-! ### Data model (src/lib/adapter-types.ts) -/

/-- The strategy kind of an adapter or detection result:
`'selector' | 'pattern' | 'javascript'`. -/
inductive Strategy where
  | selector
  | pattern
  | javascript
deriving DecidableEq, Repr

/-- Persisted adapter record (`interface Adapter`). -/
structure Adapter where
  id : String
  domains : List String
  strategy : Strategy
  selector : Option String := none
  pattern : Option String := none
  confidence : ℕ
  dateAdded : String := ""
  description : Option String := none
deriving DecidableEq, Repr

/-- Store root (`interface AdapterStore`): `{adapters, version: '1.0'}`. -/
structure AdapterStore where
  version : String
  adapters : List Adapter
deriving DecidableEq, Repr

/-- Ephemeral detection result (`interface DiscoveryResult`). -/
structure DiscoveryResult where
  strategy : Strategy
  pdfUrls : List String
  confidence : ℕ
  selector : Option String := none
  pattern : Option String := none
deriving DecidableEq, Repr

/-! ### Shared helpers for JS idioms -/

/-- Does the first character list start with the second? -/
def listStartsWith : List Char → List Char → Bool
  | _, [] => true
  | [], _ :: _ => false
  | c :: cs, p :: ps => c == p && listStartsWith cs ps

/-- JS `s.startsWith(p)`. -/
def strStartsWith (s p : String) : Bool :=
  listStartsWith s.data p.data

/-- JS `s.endsWith(p)`. -/
def strEndsWith (s p : String) : Bool :=
  listStartsWith s.data.reverse p.data.reverse

/-- Does `sub` occur as a contiguous run of `l`? -/
def listHasInfix (sub : List Char) : List Char → Bool
  | [] => sub.isEmpty
  | c :: rest => listStartsWith (c :: rest) sub || listHasInfix sub rest

/-- JS substring test `s.includes(sub)`. -/
def strContains (s sub : String) : Bool :=
  listHasInfix sub.data s.data

/-- JS `s.split(sep)` for a one-character separator (the only separators the
source splits on are `'.'` and `' '`); `''.split(sep) = ['']`. -/
def splitChar (sep : Char) : List Char → List (List Char)
  | [] => [[]]
  | c :: rest =>
    match splitChar sep rest with
    | [] => [[]]
    | seg :: segs => if c == sep then [] :: seg :: segs else (c :: seg) :: segs

/-- JS `s.toLowerCase()` (ASCII, which is all the source compares). -/
def strToLower (s : String) : String :=
  String.mk (s.data.map Char.toLower)

/-- The whitespace class of JS `trim` that can occur in the scanned text. -/
def isSpaceChar (c : Char) : Bool :=
  c == ' ' || c == '\t' || c == '\n' || c == '\r'

/-- JS `s.trim()`. -/
def strTrim (s : String) : String :=
  String.mk (((s.data.dropWhile isSpaceChar).reverse.dropWhile isSpaceChar).reverse)

/-- One insertion into a JS `Set` (membership test, else append). -/
def dedupStep (acc : List String) (x : String) : List String :=
  if acc.contains x then acc else acc ++ [x]

/-- Deduplication via JS `Set` insertion order: keeps the first occurrence
of each element (`[...new Set(l)]`). -/
def dedupFirst (l : List String) : List String :=
  l.foldl dedupStep []

/-- One step of `firstMax`: replace the current best only when the new
element is strictly better, so the first maximal element is retained —
exactly the head of a stable descending sort. -/
def stepMax (better : α → α → Bool) (best : Option α) (r : α) : Option α :=
  match best with
  | none => some r
  | some b => if better r b then some r else some b

/-- `l.sort(cmp)[0]` for a stable sort and a strict comparator `better`:
the first element of `l` that no later element strictly beats. -/
def firstMax (better : α → α → Bool) (l : List α) : Option α :=
  l.foldl (stepMax better) none

/-! ### Adapter store (src/lib/adapter-store.ts) -/

/-- `domain.replace(/^www\./, '').split('.').slice(-2).join('.')`:
strip one leading `www.`, keep the last two dot-separated labels. -/
def baseDomain (domain : String) : String :=
  let stripped := if strStartsWith domain "www." then domain.data.drop 4 else domain.data
  let parts := splitChar '.' stripped
  String.mk (List.intercalate ['.'] (parts.drop (parts.length - 2)))

/-- The filter predicate of `findAdapterForDomain`: some registered domain
has the same base domain as the query, or equals the query string exactly. -/
def adapterMatchesDomain (adapter : Adapter) (domain : String) : Bool :=
  adapter.domains.any (fun d => baseDomain d == baseDomain domain || d == domain)

/-- Strict comparator of `matching.sort((a, b) => b.confidence - a.confidence)`:
`a` sorts strictly before `b` when its confidence is larger. -/
def confGtAdapter (a b : Adapter) : Bool :=
  decide (b.confidence < a.confidence)

/-- `findAdapterForDomain(domain)` (store already loaded): filter the
adapters matching the domain, sort by confidence descending (stable),
return the first element. -/
def findAdapterForDomain (store : AdapterStore) (domain : String) : Option Adapter :=
  let matching := store.adapters.filter (fun a => adapterMatchesDomain a domain)
  firstMax confGtAdapter matching

/-- `loadAdapters(storePath)`: the `fs.readFile` outcome and the
`JSON.parse` step are explicit inputs; any failure of either yields the
empty store `{version: '1.0', adapters: []}` — the function is total, so
it never throws. -/
def loadAdapters (readResult : Except String String)
    (parseJson : String → Except String AdapterStore) : AdapterStore :=
  match readResult with
  | .error _ => { version := "1.0", adapters := [] }
  | .ok content =>
    match parseJson content with
    | .error _ => { version := "1.0", adapters := [] }
    | .ok store => store

/-! ### Selector strategy (src/lib/strategies/selector-strategy.ts)

`node-html-parser`'s `parse` is the external markup parser; the detector is
embedded over its output, a list of elements in document order.  Each probe
of the catalog is a single compound CSS selector, so matching an element is
a pure predicate on its tag, attributes and class tokens; `querySelectorAll`
is `List.filter` over the document-order element list. -/

/-- A parsed markup element: tag name plus attribute list. -/
structure Element where
  tag : String
  attrs : List (String × String)
deriving DecidableEq, Repr

/-- `element.getAttribute(name)`: first attribute with the given name. -/
def getAttr (e : Element) (name : String) : Option String :=
  (e.attrs.find? (fun kv => kv.1 == name)).map (fun kv => kv.2)

/-- `element.hasAttribute(name)`. -/
def hasAttr (e : Element) (name : String) : Bool :=
  (getAttr e name).isSome

/-- The class tokens of an element (`class` attribute split on spaces). -/
def classTokens (e : Element) : List String :=
  (splitChar ' ' ((getAttr e "class").getD "").data).map String.mk

/-- `COMMON_SELECTORS`: the fixed ordered probe catalog. -/
def COMMON_SELECTORS : List String :=
  ["a[href*=\".pdf\"]",
   "[data-pdf-url]",
   "a[href$=\".pdf\"]",
   "a.pdf-download",
   "a.pdf",
   "a[data-filetype=\"pdf\"]",
   "[href*=\"download\"][href*=\".pdf\"]",
   "a[title*=\"PDF\"]"]

/-- CSS matching of one catalog probe against one element (the semantics of
`querySelectorAll` restricted to the eight compound selectors of
`COMMON_SELECTORS`: `*=` is substring, `$=` is suffix, `=` is equality on
the attribute value, `.c` is a class token). -/
def matchesSelector (selector : String) (e : Element) : Bool :=
  if selector == "a[href*=\".pdf\"]" then
    e.tag == "a" && strContains ((getAttr e "href").getD "") ".pdf" && hasAttr e "href"
  else if selector == "[data-pdf-url]" then
    hasAttr e "data-pdf-url"
  else if selector == "a[href$=\".pdf\"]" then
    e.tag == "a" && strEndsWith ((getAttr e "href").getD "") ".pdf" && hasAttr e "href"
  else if selector == "a.pdf-download" then
    e.tag == "a" && (classTokens e).contains "pdf-download"
  else if selector == "a.pdf" then
    e.tag == "a" && (classTokens e).contains "pdf"
  else if selector == "a[data-filetype=\"pdf\"]" then
    e.tag == "a" && (getAttr e "data-filetype") == some "pdf"
  else if selector == "[href*=\"download\"][href*=\".pdf\"]" then
    strContains ((getAttr e "href").getD "") "download" &&
      strContains ((getAttr e "href").getD "") ".pdf" && hasAttr e "href"
  else if selector == "a[title*=\"PDF\"]" then
    e.tag == "a" && strContains ((getAttr e "title").getD "") "PDF" && hasAttr e "title"
  else false

/-- URL extraction from one matched element (lines 192–217 of the selector
strategy): prefer `href`, then `data-pdf-url`, then the first attribute
whose name contains `url` or `pdf`. -/
def extractUrl (e : Element) : Option String :=
  if hasAttr e "href" then getAttr e "href"
  else if hasAttr e "data-pdf-url" then getAttr e "data-pdf-url"
  else (e.attrs.find? (fun kv => strContains kv.1 "url" || strContains kv.1 "pdf")).map
    (fun kv => kv.2)

/-- The URLs one probe yields before deduplication: query the elements with
the selector, extract a URL from each, keep those containing `.pdf`. -/
def probeUrls (elements : List Element) (selector : String) : List String :=
  (elements.filter (matchesSelector selector)).filterMap (fun e =>
    match extractUrl e with
    | some url => if strContains url ".pdf" then some url else none
    | none => none)

/-- `interface SelectionMatch`. -/
structure SelectionMatch where
  selector : String
  urls : List String
  count : Nat
deriving DecidableEq, Repr

/-- One entry of the `matches` array of `detectWithSelectors`: the
deduplicated URLs of one probe, kept only when nonempty. -/
def selectorMatch (elements : List Element) (sel : String) : Option SelectionMatch :=
  if 0 < (dedupFirst (probeUrls elements sel)).length then
    some ⟨sel, dedupFirst (probeUrls elements sel),
      (dedupFirst (probeUrls elements sel)).length⟩
  else none

/-- The `matches` array built by `detectWithSelectors`: for each catalog
probe in order, its nonempty deduplicated URL list. -/
def selectorMatches (elements : List Element) : List SelectionMatch :=
  COMMON_SELECTORS.filterMap (selectorMatch elements)

/-- Strict comparator of `matches.sort((a, b) => b.count - a.count)`. -/
def countGtMatch (a b : SelectionMatch) : Bool :=
  decide (b.count < a.count)

/-- `detectWithSelectors(html)` over the parsed element list: keep the probe
yielding the most matches (first on ties, by sort stability);
`confidence = min(0.99, 0.65 + 0.1 × count)`; `undefined` when every probe
yields nothing. -/
def detectWithSelectors (elements : List Element) : Option DiscoveryResult :=
  match firstMax countGtMatch (selectorMatches elements) with
  | none => none
  | some bestMatch =>
    some { strategy := .selector,
           pdfUrls := bestMatch.urls,
           selector := some bestMatch.selector,
           confidence := min 99 (65 + bestMatch.count * 10) }

/-! ### Pattern strategy (src/lib/strategies/pattern-strategy.ts)

The three extraction regex families of `extractPotentialUrls` scan the raw
markup; the detector is embedded over their combined output (the
`potentialUrls` array), so every markup corresponds to some input list. -/

/-- One trailing-punctuation strip: `url.replace(/[,;:)]$/, '')`. -/
def stripTrailingPunct (url : String) : String :=
  if strEndsWith url "," || strEndsWith url ";" || strEndsWith url ":" ||
      strEndsWith url ")" then
    String.mk url.data.dropLast
  else url

/-- `cleanUrl(url)`: trim; keep `data:application/pdf` URLs as-is; strip one
trailing punctuation mark; require `.pdf` and a `/`, `http(s)://` or `data:`
prefix; `null` otherwise. -/
def cleanUrl (url : String) : Option String :=
  let url := strTrim url
  if strStartsWith url "data:application/pdf" then some url
  else
    let url := stripTrailingPunct url
    if !strContains url ".pdf" then none
    else if !(strStartsWith url "/" || strStartsWith url "http://" ||
        strStartsWith url "https://" || strStartsWith url "data:") then none
    else some url

/-- `/\d+/g → 'N'` (recursion step): replace every maximal run of decimal
digits by `N`.  Fuel (initially the length of the list) only bounds the
recursion; every step consumes at least one character, so it never runs
out. -/
def replaceDigitRunsGo : Nat → List Char → List Char
  | _, [] => []
  | 0, l => l
  | fuel + 1, c :: rest =>
    if c.isDigit then 'N' :: replaceDigitRunsGo fuel (rest.dropWhile Char.isDigit)
    else c :: replaceDigitRunsGo fuel rest

/-- `/\d+/g → 'N'`: replace every maximal run of decimal digits by `N`. -/
def replaceDigitRuns (l : List Char) : List Char :=
  replaceDigitRunsGo l.length l

/-- The character class `[a-z]` of the variable-token regex. -/
def isLowerAZ (c : Char) : Bool :=
  'a' ≤ c && c ≤ 'z'

/-- `/[a-z]+_[a-z]+/g → 'VAR'`: leftmost non-overlapping replacement.  At a
lowercase letter the maximal run is taken; since `[a-z]` cannot match `_`,
greedy matching never backtracks, and when a run is not followed by
`_`+lowercase no start inside the run can match either, so the scanner may
emit the whole run.  Fuel (initially the length of the list) only bounds the
recursion; every step consumes at least one character, so it never runs out. -/
def replaceVarTokensGo : Nat → List Char → List Char
  | _, [] => []
  | 0, l => l
  | fuel + 1, c :: rest =>
    if isLowerAZ c then
      let run1 := (c :: rest).takeWhile isLowerAZ
      match (c :: rest).dropWhile isLowerAZ with
      | '_' :: d :: rest2 =>
        if isLowerAZ d then
          'V' :: 'A' :: 'R' :: replaceVarTokensGo fuel ((d :: rest2).dropWhile isLowerAZ)
        else run1 ++ '_' :: replaceVarTokensGo fuel (d :: rest2)
      | rest1 => run1 ++ replaceVarTokensGo fuel rest1
    else c :: replaceVarTokensGo fuel rest

/-- `url.replace(/\d+/g, 'N').replace(/[a-z]+_[a-z]+/g, 'VAR')`. -/
def simplifiedPath (url : String) : String :=
  let afterDigits := replaceDigitRuns url.data
  String.mk (replaceVarTokensGo afterDigits.length afterDigits)

/-- One step of the `pathPatterns` tally: increment the count of the key if
present, else append it with count 1 (JS object insertion order). -/
def tallyStep (acc : List (String × Nat)) (s : String) : List (String × Nat) :=
  if acc.any (fun kv => kv.1 == s) then
    acc.map (fun kv => if kv.1 == s then (kv.1, kv.2 + 1) else kv)
  else acc ++ [(s, 1)]

/-- The `pathPatterns` frequency table, in insertion order. -/
def tally (keys : List String) : List (String × Nat) :=
  keys.foldl tallyStep []

/-- The `mostCommon`/`maxCount` scan of `findPattern`: first entry with a
strictly larger count wins, starting from `('', 0)`. -/
def mostCommonTally (pathPatterns : List (String × Nat)) : String × Nat :=
  pathPatterns.foldl (fun best kv => if best.2 < kv.2 then kv else best) ("", 0)

/-- `findPattern(urls)`: `undefined` below two URLs; otherwise tally the
simplified paths and return the most common one if it covers at least 50%
of the URLs (`maxCount >= urls.length * 0.5`, exact as `2 * maxCount ≥ n`). -/
def findPattern (urls : List String) : Option String :=
  if urls.length < 2 then none
  else
    let best := mostCommonTally (tally (urls.map simplifiedPath))
    if urls.length ≤ 2 * best.2 then some best.1 else none

/-- `calculateConfidence(urls, pattern) = min(0.95, 0.5 + 0.05 × n)`,
plus 0.15 (re-capped at 0.95) when a pattern was found. -/
def calculateConfidence (urls : List String) (pat : Option String) : ℕ :=
  let confidence := min 95 (50 + urls.length * 5)
  match pat with
  | some _ => min 95 (confidence + 15)
  | none => confidence

/-- `detectWithPatterns(html)` over the extracted candidate list: clean and
validate each candidate, dedupe (`Set`), return `undefined` when nothing
survives, else infer a pattern and score. -/
def detectWithPatterns (potentialUrls : List String) : Option DiscoveryResult :=
  let foundUrls := dedupFirst (potentialUrls.filterMap cleanUrl)
  if foundUrls.length == 0 then none
  else
    let pat := findPattern foundUrls
    some { strategy := .pattern,
           pdfUrls := foundUrls,
           pattern := pat,
           confidence := calculateConfidence foundUrls pat }

/-! ### JavaScript strategy (src/lib/strategies/javascript-strategy.ts)

The headless-browser session is the external collaborator: the URL list the
`page.evaluate` anchor walk collects and the list of regex matches over the
rendered `page.content()` are the inputs of the pure tail of the function
(lines 99–112). -/

/-- `detectWithJavaScript` after the browser steps: union and dedupe the
anchor-collected and text-matched URLs; `undefined` on zero URLs; otherwise
`confidence = min(0.98, 0.85 + 0.02 × urlCount)`. -/
def detectWithJavaScript (evalUrls textPdfs : List String) : Option DiscoveryResult :=
  let allUrls := dedupFirst (evalUrls ++ textPdfs)
  if allUrls.length == 0 then none
  else
    some { strategy := .javascript,
           pdfUrls := allUrls,
           confidence := min 98 (85 + allUrls.length * 2) }

/-! ### Discovery orchestrator (src/lib/adapter-discovery-engine.ts) -/

/-- The fixed confidence floor of the orchestrator. -/
def MINIMUM_CONFIDENCE : ℕ := 50

/-- `report.results` in push order: selector result first, then pattern,
then the awaited JavaScript result, skipping absent ones. -/
def collectResults (selectorResult patternResult jsResult : Option DiscoveryResult) :
    List DiscoveryResult :=
  selectorResult.toList ++ patternResult.toList ++ jsResult.toList

/-- `report.results.filter(r => r.confidence >= MINIMUM_CONFIDENCE)`. -/
def validResults (results : List DiscoveryResult) : List DiscoveryResult :=
  results.filter (fun r => decide (r.confidence ≥ MINIMUM_CONFIDENCE))

/-- `strategyPriority = { javascript: 3, pattern: 2, selector: 1 }`. -/
def strategyPriority : Strategy → Nat
  | .javascript => 3
  | .pattern => 2
  | .selector => 1

/-- Strict comparator of the three-level sort of `discoverAdapter`:
confidence descending, then number of PDF URLs descending, then strategy
priority descending. -/
def ranksBefore (a b : DiscoveryResult) : Bool :=
  decide (b.confidence < a.confidence) ||
    (decide (a.confidence = b.confidence) &&
      (decide (b.pdfUrls.length < a.pdfUrls.length) ||
        (decide (a.pdfUrls.length = b.pdfUrls.length) &&
          decide (strategyPriority b.strategy < strategyPriority a.strategy))))

/-- The `bestResult` selection of `discoverAdapter` (lines 56–79): filter by
the confidence floor, sort with the three-level comparator (stable), take
the first element. -/
def discoverAdapterBest (results : List DiscoveryResult) : Option DiscoveryResult :=
  firstMax ranksBefore (validResults results)

/-- The strategy-name string used in the generated description. -/
def strategyName : Strategy → String
  | .selector => "selector"
  | .pattern => "pattern"
  | .javascript => "javascript"

/-- `discoverAdapter(html, url)` with the three strategy outcomes, the
generated id, the timestamp and the extracted domains as inputs: select the
best surviving result and convert it to an `Adapter`. -/
def discoverAdapter (selectorResult patternResult jsResult : Option DiscoveryResult)
    (id timestamp : String) (domains : List String) : Option Adapter :=
  match discoverAdapterBest (collectResults selectorResult patternResult jsResult) with
  | none => none
  | some bestResult =>
    some { id := id,
           domains := domains,
           strategy := bestResult.strategy,
           selector := bestResult.selector,
           pattern := bestResult.pattern,
           confidence := bestResult.confidence,
           dateAdded := timestamp,
           description := some ("Auto-discovered using " ++ strategyName bestResult.strategy
             ++ " strategy") }

/-- Strict comparator of the report variant's single-level sort
`validResults.sort((a, b) => b.confidence - a.confidence)`. -/
def confGtResult (a b : DiscoveryResult) : Bool :=
  decide (b.confidence < a.confidence)

/-- The `report.bestResult` selection of `discoverAdapterWithReport`
(lines 150–154): filter by the confidence floor, sort by confidence only
(stable), take the first element. -/
def discoverAdapterWithReportBest (results : List DiscoveryResult) : Option DiscoveryResult :=
  firstMax confGtResult (validResults results)

/-! ### Scrape facade (src/lib/url-scraper.ts)

`fetchHtml` and the markup parse are the external collaborators: a fetch
outcome is an `Except` of either the error message or the parsed element
list of the fetched page.  The selector- and pattern-branch extractions run
an arbitrary stored selector or regex against the page, so their outcomes
are inputs; the `javascript` branch is concrete — the code calls
`getPdfUrlsFromHtml`, the static anchor walk, for it. -/

/-- `getPdfUrlsFromHtml(html)`: every anchor whose `href` ends (after
lowercasing) in `.pdf`, deduplicated (`Set` order). -/
def getPdfUrlsFromHtml (elements : List Element) : List String :=
  dedupFirst (elements.filterMap (fun e =>
    if e.tag == "a" then
      match getAttr e "href" with
      | some href => if strEndsWith (strToLower href) ".pdf" then some href else none
      | none => none
    else none))

/-- The result shape of `getPdfUrlsWithAdapters`. -/
structure FacadeResult where
  pdfUrls : List String
  adapter : Option Adapter := none
  source : String
deriving DecidableEq, Repr

/-- The default-scraping tail of `getPdfUrlsWithAdapters` (lines 236–244):
refetch the page and run `getPdfUrlsFromHtml`; a fetch failure reaches the
outer catch, which logs and rethrows the error. -/
def facadeDefault (refetch : Except String (List Element)) : Except String FacadeResult :=
  match refetch with
  | .error e => .error e
  | .ok elements => .ok { pdfUrls := getPdfUrlsFromHtml elements, source := "default" }

/-- The per-strategy extraction of the adapter branch (lines 186–219):
the stored selector or pattern is applied to the fetched page by external
machinery (`querySelectorAll` on an arbitrary selector string, `RegExp` on
an arbitrary pattern string), so those two outcomes are inputs; the
`javascript` branch runs `getPdfUrlsFromHtml` on the fetched page — the
static anchor walk, not the headless-browser strategy. -/
def facadeAdapterUrls (adapter : Adapter) (elements : List Element)
    (selectorBranchUrls patternBranchUrls : List String) : List String :=
  if adapter.strategy == .selector && adapter.selector.isSome then selectorBranchUrls
  else if adapter.strategy == .pattern && adapter.pattern.isSome then patternBranchUrls
  else if adapter.strategy == .javascript then getPdfUrlsFromHtml elements
  else []

/-- `getPdfUrlsWithAdapters(url)` (lines 167–250) with the adapter lookup
and the two possible page fetches as inputs.  The function body is wrapped
in a `try`/`catch` whose handler logs the error and rethrows it, so a fetch
failure propagates to the caller as the same error. -/
def getPdfUrlsWithAdapters (adapterLookup : Option Adapter)
    (fetch1 refetch : Except String (List Element))
    (selectorBranchUrls patternBranchUrls : List String) : Except String FacadeResult :=
  match adapterLookup with
  | some adapter =>
    match fetch1 with
    | .error e => .error e
    | .ok elements =>
      let pdfUrls :=
        dedupFirst (facadeAdapterUrls adapter elements selectorBranchUrls patternBranchUrls)
      if 0 < pdfUrls.length then
        .ok { pdfUrls := pdfUrls, adapter := some adapter, source := "adapter" }
      else facadeDefault refetch
  | none => facadeDefault refetch

/-! ### Concrete fixtures for the scenario conjuncts, counterexamples and
witnesses -/

/-- An adapter registered for `example.com` (shape of the store tests). -/
def exAdapter : Adapter :=
  { id := "adapter-1", domains := ["example.com"], strategy := .selector,
    selector := some "a[href*=\".pdf\"]", confidence := 90 }

/-- A second adapter also matching `example.com`, with lower confidence. -/
def exAdapter2 : Adapter :=
  { id := "adapter-2", domains := ["www.example.com"], strategy := .pattern,
    pattern := some "/pdf/.*", confidence := 70 }

/-- A store holding only `exAdapter`. -/
def exStore : AdapterStore := { version := "1.0", adapters := [exAdapter] }

/-- A store holding `exAdapter2` before `exAdapter`. -/
def exStore2 : AdapterStore := { version := "1.0", adapters := [exAdapter2, exAdapter] }

/-- An adapter registered only for `foo.co.uk`. -/
def coUkAdapter : Adapter :=
  { id := "adapter-co-uk", domains := ["foo.co.uk"], strategy := .selector,
    selector := some "a[href*=\".pdf\"]", confidence := 90 }

/-- A store holding only `coUkAdapter`. -/
def coUkStore : AdapterStore := { version := "1.0", adapters := [coUkAdapter] }

/-- Selector result with confidence 0.8 and one URL (tie fixture). -/
def tieSel : DiscoveryResult :=
  { strategy := .selector, pdfUrls := ["/a.pdf"], confidence := 80,
    selector := some "a[href*=\".pdf\"]" }

/-- Pattern result with confidence 0.8 and one URL (tie fixture). -/
def tiePat : DiscoveryResult :=
  { strategy := .pattern, pdfUrls := ["/b.pdf"], confidence := 80 }

/-- JavaScript result with confidence 0.8 and one URL (tie fixture). -/
def tieJs : DiscoveryResult :=
  { strategy := .javascript, pdfUrls := ["/c.pdf"], confidence := 80 }

/-- Selector result: confidence 0.75, one URL. -/
def oneUrlSel : DiscoveryResult :=
  { strategy := .selector, pdfUrls := ["/a.pdf"], confidence := 75,
    selector := some "a[href*=\".pdf\"]" }

/-- Pattern result: confidence 0.75, two URLs. -/
def twoUrlPat : DiscoveryResult :=
  { strategy := .pattern, pdfUrls := ["/b.pdf", "/c.pdf"], confidence := 75 }

/-- The parsed elements of the spec scenario markup
`<a href="/pdf/page1.pdf">1</a><a href="/pdf/page2.pdf">2</a><a href="/pdf/page3.pdf">3</a>`. -/
def scenarioElems : List Element :=
  [{ tag := "a", attrs := [("href", "/pdf/page1.pdf")] },
   { tag := "a", attrs := [("href", "/pdf/page2.pdf")] },
   { tag := "a", attrs := [("href", "/pdf/page3.pdf")] }]

/-- A `javascript`-kind adapter as stored for a dynamic site. -/
def jsAdapter : Adapter :=
  { id := "js-adapter", domains := ["site.com"], strategy := .javascript,
    confidence := 90 }

/-- Static DOM of a page whose markup holds one static PDF anchor; the
rendered page would additionally expose `/dynamic.pdf`. -/
def staticElems : List Element :=
  [{ tag := "a", attrs := [("href", "/static.pdf")] }]

/-- A `selector`-kind adapter fixture. -/
def selAdapter : Adapter :=
  { id := "selector-adapter", domains := ["site.com"], strategy := .selector,
    selector := some "a.pdf-link", confidence := 90 }

/-- Candidate URLs whose simplified paths agree (pattern-detector witness):
digits collapse to `N` and `doc_a`/`doc_b` collapse to `VAR`, so both
simplify to `/VARN.pdf`. -/
def patternUrls : List String := ["/doc_a1.pdf", "/doc_b2.pdf"]


/-! ## Generic lemmas about the embedded JS idioms -/

/-- Any result of the `firstMax` fold is the initial value or a member. -/
theorem foldl_stepMax_mem (better : α → α → Bool) :
    ∀ (l : List α) (init : Option α) (r : α),
      l.foldl (stepMax better) init = some r → init = some r ∨ r ∈ l := by
  intro l
  induction l with
  | nil => intro init r h; exact Or.inl h
  | cons x xs ih =>
    intro init r h
    rcases ih (stepMax better init x) r h with h' | h'
    · cases init with
      | none =>
        simp only [stepMax] at h'
        exact Or.inr (by simp [← Option.some_inj.mp h'])
      | some b =>
        simp only [stepMax] at h'
        by_cases hb : better x b = true
        · rw [if_pos hb] at h'
          exact Or.inr (by simp [← Option.some_inj.mp h'])
        · rw [if_neg hb] at h'
          exact Or.inl h'
    · exact Or.inr (List.mem_cons_of_mem _ h')

/-- A member of `l` certified by `firstMax`. -/
theorem firstMax_mem (better : α → α → Bool) (l : List α) (r : α)
    (h : firstMax better l = some r) : r ∈ l := by
  rcases foldl_stepMax_mem better l none r h with h' | h'
  · cases h'
  · exact h'

/-- Once the accumulator is `some`, the fold stays `some`. -/
theorem foldl_stepMax_isSome (better : α → α → Bool) :
    ∀ (l : List α) (init : Option α), init.isSome →
      (l.foldl (stepMax better) init).isSome := by
  intro l
  induction l with
  | nil => intro init h; exact h
  | cons x xs ih =>
    intro init h
    apply ih
    cases init with
    | none => simp at h
    | some b => simp only [stepMax]; by_cases hb : better x b = true <;> simp [hb]

/-- `firstMax` returns `none` exactly on the empty list. -/
theorem firstMax_eq_none_iff (better : α → α → Bool) (l : List α) :
    firstMax better l = none ↔ l = [] := by
  cases l with
  | nil => simp [firstMax]
  | cons x xs =>
    constructor
    · intro h
      have : (List.foldl (stepMax better) (stepMax better none x) xs).isSome :=
        foldl_stepMax_isSome better xs (stepMax better none x) (by simp [stepMax])
      rw [show List.foldl (stepMax better) (stepMax better none x) xs
          = firstMax better (x :: xs) from rfl, h] at this
      simp at this
    · intro h; cases h

/-- For a strict-weak-order comparator (irreflexive, transitive, with
transitive negation), the fold's result is never strictly beaten: not by the
initial element, not by any element of the list. -/
theorem foldl_stepMax_max (better : α → α → Bool)
    (hirr : ∀ a, better a a = false)
    (htrans : ∀ a b c, better a b = true → better b c = true → better a c = true)
    (hntrans : ∀ a b c, better a b = false → better b c = false → better a c = false) :
    ∀ (l : List α) (b r : α), l.foldl (stepMax better) (some b) = some r →
      better b r = false ∧ ∀ x ∈ l, better x r = false := by
  intro l
  induction l with
  | nil =>
    intro b r h
    simp only [List.foldl] at h
    rcases Option.some_inj.mp h with rfl
    exact ⟨hirr b, by simp⟩
  | cons x xs ih =>
    intro b r h
    simp only [List.foldl, stepMax] at h
    by_cases hb : better x b = true
    · rw [if_pos hb] at h
      obtain ⟨hxr, hxs⟩ := ih x r h
      have hbr : better b r = false := by
        by_contra hc
        have hbr' : better b r = true := by
          cases hbx : better b r with
          | false => exact absurd hbx hc
          | true => rfl
        have hxb2 : better x r = true := htrans x b r hb hbr'
        rw [hxb2] at hxr; cases hxr
      refine ⟨hbr, ?_⟩
      intro y hy
      rcases List.mem_cons.mp hy with rfl | hy'
      · exact hxr
      · exact hxs y hy'
    · have hb' : better x b = false := by
        cases hbx : better x b with
        | false => rfl
        | true => exact absurd hbx hb
      rw [if_neg hb] at h
      obtain ⟨hbr, hxs⟩ := ih b r h
      refine ⟨hbr, ?_⟩
      intro y hy
      rcases List.mem_cons.mp hy with rfl | hy'
      · exact hntrans y b r hb' hbr
      · exact hxs y hy'

/-- Maximality of `firstMax` for a strict-weak-order comparator. -/
theorem firstMax_max (better : α → α → Bool)
    (hirr : ∀ a, better a a = false)
    (htrans : ∀ a b c, better a b = true → better b c = true → better a c = true)
    (hntrans : ∀ a b c, better a b = false → better b c = false → better a c = false)
    (l : List α) (r : α) (h : firstMax better l = some r) :
    ∀ x ∈ l, better x r = false := by
  cases l with
  | nil => cases h
  | cons x xs =>
    have h' : xs.foldl (stepMax better) (some x) = some r := by
      simpa [firstMax, List.foldl, stepMax] using h
    obtain ⟨hxr, hxs⟩ := foldl_stepMax_max better hirr htrans hntrans xs x r h'
    intro y hy
    rcases List.mem_cons.mp hy with rfl | hy'
    · exact hxr
    · exact hxs y hy'

/-- `confGtAdapter` is irreflexive. -/
theorem confGtAdapter_irrefl (a : Adapter) : confGtAdapter a a = false := by
  simp [confGtAdapter]

/-- `confGtAdapter` is transitive. -/
theorem confGtAdapter_trans (a b c : Adapter) (h1 : confGtAdapter a b = true)
    (h2 : confGtAdapter b c = true) : confGtAdapter a c = true := by
  simp only [confGtAdapter, decide_eq_true_eq] at *
  exact lt_trans h2 h1

/-- The negation of `confGtAdapter` is transitive. -/
theorem confGtAdapter_ntrans (a b c : Adapter) (h1 : confGtAdapter a b = false)
    (h2 : confGtAdapter b c = false) : confGtAdapter a c = false := by
  simp only [confGtAdapter, decide_eq_false_iff_not, not_lt] at *
  exact le_trans h1 h2

/-! ## C1 — domain lookup returns the highest-confidence match -/

/-- C1: for every store and queried hostname, `findAdapterForDomain` returns
an adapter that matches the query (some registered domain has the query's
base domain — last two labels after stripping a leading `www.` — or equals
the query exactly) and whose confidence is maximal among all matching
adapters; it returns `none` exactly when no adapter matches.  In particular
the adapter registered for `example.com` is returned for the query
`cdn.example.com` (also in the presence of a lower-confidence match), and
the query `other.com` returns `none`. -/
theorem findAdapterForDomain_spec :
    (∀ (store : AdapterStore) (domain : String) (a : Adapter),
       findAdapterForDomain store domain = some a →
       a ∈ store.adapters ∧ adapterMatchesDomain a domain = true ∧
       ∀ b ∈ store.adapters, adapterMatchesDomain b domain = true →
         b.confidence ≤ a.confidence) ∧
    (∀ (store : AdapterStore) (domain : String),
       findAdapterForDomain store domain = none ↔
       ∀ b ∈ store.adapters, adapterMatchesDomain b domain = false) ∧
    findAdapterForDomain exStore "cdn.example.com" = some exAdapter ∧
    findAdapterForDomain exStore2 "cdn.example.com" = some exAdapter ∧
    findAdapterForDomain exStore "other.com" = none := by
  refine ⟨?_, ?_, by decide, by decide, by decide⟩
  · intro store domain a h
    have hmem := firstMax_mem confGtAdapter _ a h
    have hmax := firstMax_max confGtAdapter confGtAdapter_irrefl confGtAdapter_trans
      confGtAdapter_ntrans _ a h
    obtain ⟨ha, hpred⟩ := List.mem_filter.mp hmem
    refine ⟨ha, hpred, ?_⟩
    intro b hb hbpred
    have hbmem : b ∈ store.adapters.filter (fun x => adapterMatchesDomain x domain) :=
      List.mem_filter.mpr ⟨hb, hbpred⟩
    have := hmax b hbmem
    simpa [confGtAdapter, not_lt] using this
  · intro store domain
    rw [show findAdapterForDomain store domain
        = firstMax confGtAdapter (store.adapters.filter
            (fun x => adapterMatchesDomain x domain)) from rfl,
      firstMax_eq_none_iff, List.filter_eq_nil_iff]
    simp

/-- Witness for C1 at a concrete store with two matching adapters. -/
theorem findAdapterForDomain_spec_witness :
    exAdapter2.confidence ≤ exAdapter.confidence :=
  (findAdapterForDomain_spec.1 exStore2 "cdn.example.com" exAdapter (by decide)).2.2
    exAdapter2 (by decide) (by decide)

/-! ## C2 — base-domain generalization and its collisions -/

/-- C2 counterexample: the claim says two registrable sites that merely share
an unrelated second-level label never collide, but the base-domain reduction
keeps only the last two labels, so the adapter registered only for
`foo.co.uk` IS returned for the query `bar.co.uk`. -/
theorem findAdapterForDomain_coUk_collision :
    findAdapterForDomain coUkStore "bar.co.uk" = some coUkAdapter := by decide

/-- C2 amended: an adapter none of whose registered domains shares the
query's last-two-label base domain, and none of which equals the query
exactly, is never returned; but hostnames sharing their final two labels do
collide — the `foo.co.uk` adapter is returned for `bar.co.uk`. -/
theorem findAdapterForDomain_base_collision_spec :
    (∀ (store : AdapterStore) (domain : String) (a : Adapter),
       (∀ d ∈ a.domains, baseDomain d ≠ baseDomain domain ∧ d ≠ domain) →
       findAdapterForDomain store domain ≠ some a) ∧
    findAdapterForDomain coUkStore "bar.co.uk" = some coUkAdapter := by
  refine ⟨?_, by decide⟩
  intro store domain a hnone h
  have hmem := firstMax_mem confGtAdapter _ a h
  obtain ⟨-, hpred⟩ := List.mem_filter.mp hmem
  simp only [adapterMatchesDomain, List.any_eq_true, Bool.or_eq_true, beq_iff_eq] at hpred
  obtain ⟨d, hd, hcase⟩ := hpred
  rcases hcase with hbase | hexact
  · exact (hnone d hd).1 hbase
  · exact (hnone d hd).2 hexact

/-- Witness for C2's amended theorem: the `foo.co.uk` adapter is not
returned for the unrelated query `unrelated.org`, and is returned for
`bar.co.uk`. -/
theorem findAdapterForDomain_base_collision_spec_witness :
    findAdapterForDomain coUkStore "unrelated.org" ≠ some coUkAdapter ∧
    findAdapterForDomain coUkStore "bar.co.uk" = some coUkAdapter :=
  ⟨findAdapterForDomain_base_collision_spec.1 coUkStore "unrelated.org" coUkAdapter
      (by decide),
    findAdapterForDomain_base_collision_spec.2⟩

/-! ## C3 — the orchestrator's three-level ranking -/

/-- `ranksBefore` is irreflexive. -/
theorem ranksBefore_irrefl (a : DiscoveryResult) : ranksBefore a a = false := by
  simp [ranksBefore]

/-- `ranksBefore` is transitive. -/
theorem ranksBefore_trans (a b c : DiscoveryResult) (h1 : ranksBefore a b = true)
    (h2 : ranksBefore b c = true) : ranksBefore a c = true := by
  simp only [ranksBefore, Bool.or_eq_true, Bool.and_eq_true, decide_eq_true_eq] at h1 h2 ⊢
  omega

/-- The negation of `ranksBefore` is transitive. -/
theorem ranksBefore_ntrans (a b c : DiscoveryResult) (h1 : ranksBefore a b = false)
    (h2 : ranksBefore b c = false) : ranksBefore a c = false := by
  rw [Bool.eq_false_iff] at h1 h2 ⊢
  simp only [ne_eq, ranksBefore, Bool.or_eq_true, Bool.and_eq_true, decide_eq_true_eq]
    at h1 h2 ⊢
  omega

/-- C3: for every collection of detector results, the orchestrator's best
pick survives the minimum-confidence floor and, among all surviving results,
has maximal confidence, maximal URL count among equal confidences, and
maximal strategy priority (`javascript > pattern > selector`) among equal
confidence and URL count; `discoverAdapter`'s returned adapter copies the
strategy, parameters and confidence of exactly that pick.  In particular,
with all three results tied on confidence and URL count, the javascript
result wins, and with only selector and pattern tied, the pattern result
wins. -/
theorem discoverAdapter_ranking_spec :
    (∀ (results : List DiscoveryResult) (r : DiscoveryResult),
       discoverAdapterBest results = some r →
       r ∈ validResults results ∧
       ∀ x ∈ validResults results,
         x.confidence ≤ r.confidence ∧
         (x.confidence = r.confidence → x.pdfUrls.length ≤ r.pdfUrls.length) ∧
         (x.confidence = r.confidence → x.pdfUrls.length = r.pdfUrls.length →
           strategyPriority x.strategy ≤ strategyPriority r.strategy)) ∧
    (∀ (selectorResult patternResult jsResult : Option DiscoveryResult)
       (id timestamp : String) (domains : List String) (a : Adapter),
       discoverAdapter selectorResult patternResult jsResult id timestamp domains = some a →
       ∃ r, discoverAdapterBest (collectResults selectorResult patternResult jsResult)
           = some r ∧
         a.strategy = r.strategy ∧ a.confidence = r.confidence ∧
         a.selector = r.selector ∧ a.pattern = r.pattern) ∧
    discoverAdapterBest (collectResults (some tieSel) (some tiePat) (some tieJs))
      = some tieJs ∧
    discoverAdapterBest (collectResults (some tieSel) (some tiePat) none) = some tiePat := by
  refine ⟨?_, ?_, by decide, by decide⟩
  · intro results r h
    have hmem := firstMax_mem ranksBefore _ r h
    have hmax := firstMax_max ranksBefore ranksBefore_irrefl ranksBefore_trans
      ranksBefore_ntrans _ r h
    refine ⟨hmem, ?_⟩
    intro x hx
    have hx' := hmax x hx
    rw [Bool.eq_false_iff] at hx'
    simp only [ne_eq, ranksBefore, Bool.or_eq_true, Bool.and_eq_true, decide_eq_true_eq]
      at hx'
    refine ⟨by omega, by omega, by omega⟩
  · intro s p j id ts ds a h
    cases hb : discoverAdapterBest (collectResults s p j) with
    | none =>
      simp only [discoverAdapter, hb] at h
      exact Option.noConfusion h
    | some r =>
      simp only [discoverAdapter, hb, Option.some_inj] at h
      exact ⟨r, rfl, by rw [← h], by rw [← h], by rw [← h], by rw [← h]⟩

/-- Witness for C3 at the concrete tie fixtures. -/
theorem discoverAdapter_ranking_spec_witness :
    tiePat.confidence ≤ tieJs.confidence ∧
    strategyPriority tiePat.strategy ≤ strategyPriority tieJs.strategy := by
  have h := (discoverAdapter_ranking_spec.1
    (collectResults (some tieSel) (some tiePat) (some tieJs)) tieJs (by decide)).2
    tiePat (by decide)
  exact ⟨h.1, h.2.2 (by decide) (by decide)⟩

/-! ## C4 — the report variant's best pick -/

/-- C4 counterexample: with a selector result (confidence 0.75, one URL) and
a pattern result (confidence 0.75, two URLs), the three-level ranking of
`discoverAdapter` selects the pattern result, but the report variant, which
sorts by confidence only, designates the selector result. -/
theorem reportBest_ne_orchestratorBest :
    discoverAdapterWithReportBest (collectResults (some oneUrlSel) (some twoUrlPat) none)
      = some oneUrlSel ∧
    discoverAdapterBest (collectResults (some oneUrlSel) (some twoUrlPat) none)
      = some twoUrlPat ∧
    oneUrlSel ≠ twoUrlPat :=
  ⟨by decide, by decide, by decide⟩

/-- `confGtResult` is irreflexive. -/
theorem confGtResult_irrefl (a : DiscoveryResult) : confGtResult a a = false := by
  simp [confGtResult]

/-- `confGtResult` is transitive. -/
theorem confGtResult_trans (a b c : DiscoveryResult) (h1 : confGtResult a b = true)
    (h2 : confGtResult b c = true) : confGtResult a c = true := by
  simp only [confGtResult, decide_eq_true_eq] at h1 h2 ⊢
  omega

/-- The negation of `confGtResult` is transitive. -/
theorem confGtResult_ntrans (a b c : DiscoveryResult) (h1 : confGtResult a b = false)
    (h2 : confGtResult b c = false) : confGtResult a c = false := by
  simp only [confGtResult, decide_eq_false_iff_not, not_lt] at h1 h2 ⊢
  omega

/-- C4 amended: the report variant's designated best is a surviving result
of maximal confidence (the first such, by sort stability); it is `none`
exactly when no result survives the floor; and whenever one surviving
result's confidence is strictly greatest, the report's best and the
orchestrator's three-level pick coincide — they can differ only on
confidence ties, as the counterexample shows. -/
theorem discoverAdapterWithReport_best_spec :
    (∀ (results : List DiscoveryResult) (r : DiscoveryResult),
       discoverAdapterWithReportBest results = some r →
       r ∈ validResults results ∧
       ∀ x ∈ validResults results, x.confidence ≤ r.confidence) ∧
    (∀ results : List DiscoveryResult,
       discoverAdapterWithReportBest results = none ↔ validResults results = []) ∧
    (∀ (results : List DiscoveryResult) (r : DiscoveryResult),
       r ∈ validResults results →
       (∀ x ∈ validResults results, x ≠ r → x.confidence < r.confidence) →
       discoverAdapterWithReportBest results = some r ∧
         discoverAdapterBest results = some r) := by
  refine ⟨?_, ?_, ?_⟩
  · intro results r h
    have hmem := firstMax_mem confGtResult _ r h
    have hmax := firstMax_max confGtResult confGtResult_irrefl confGtResult_trans
      confGtResult_ntrans _ r h
    refine ⟨hmem, ?_⟩
    intro x hx
    have := hmax x hx
    simpa [confGtResult, not_lt] using this
  · intro results
    exact firstMax_eq_none_iff confGtResult (validResults results)
  · intro results r hr hstrict
    have hne : validResults results ≠ [] := List.ne_nil_of_mem hr
    constructor
    · cases h : discoverAdapterWithReportBest results with
      | none =>
        exact absurd ((firstMax_eq_none_iff confGtResult _).mp h) hne
      | some y =>
        have hymem := firstMax_mem confGtResult _ y h
        have hymax := firstMax_max confGtResult confGtResult_irrefl confGtResult_trans
          confGtResult_ntrans _ y h
        have hry := hymax r hr
        simp only [confGtResult, decide_eq_false_iff_not, not_lt] at hry
        by_cases hyr : y = r
        · rw [hyr]
        · have := hstrict y hymem hyr
          omega
    · cases h : discoverAdapterBest results with
      | none =>
        exact absurd ((firstMax_eq_none_iff ranksBefore _).mp h) hne
      | some y =>
        have hymem := firstMax_mem ranksBefore _ y h
        have hymax := firstMax_max ranksBefore ranksBefore_irrefl ranksBefore_trans
          ranksBefore_ntrans _ y h
        have hry := hymax r hr
        rw [Bool.eq_false_iff] at hry
        simp only [ne_eq, ranksBefore, Bool.or_eq_true, Bool.and_eq_true,
          decide_eq_true_eq] at hry
        by_cases hyr : y = r
        · rw [hyr]
        · have := hstrict y hymem hyr
          omega

/-- Witness for C4's amended theorem: a strict confidence winner makes both
selections agree. -/
theorem discoverAdapterWithReport_best_spec_witness :
    discoverAdapterWithReportBest (collectResults (some oneUrlSel) none (some tieJs))
      = some tieJs ∧
    discoverAdapterBest (collectResults (some oneUrlSel) none (some tieJs)) = some tieJs :=
  discoverAdapterWithReport_best_spec.2.2
    (collectResults (some oneUrlSel) none (some tieJs)) tieJs (by decide) (by decide)

/-! ## C5 — the selector detector -/

/-- A `Set` insertion never empties the accumulator. -/
theorem dedupStep_ne_nil (acc : List String) (x : String) : dedupStep acc x ≠ [] := by
  unfold dedupStep
  by_cases h : acc.contains x = true
  · rw [if_pos h]
    intro hnil
    rw [hnil] at h
    simp at h
  · rw [if_neg h]
    simp

/-- A nonempty `Set` accumulator stays nonempty through the fold. -/
theorem foldl_dedupStep_ne_nil :
    ∀ (l acc : List String), acc ≠ [] → l.foldl dedupStep acc ≠ [] := by
  intro l
  induction l with
  | nil => intro acc h; exact h
  | cons x xs ih => intro acc _; exact ih (dedupStep acc x) (dedupStep_ne_nil acc x)

/-- Deduplication yields the empty list exactly on the empty list. -/
theorem dedupFirst_eq_nil_iff (l : List String) : dedupFirst l = [] ↔ l = [] := by
  cases l with
  | nil => simp [dedupFirst]
  | cons x xs =>
    constructor
    · intro h
      have : (x :: xs).foldl dedupStep [] ≠ [] := by
        simp only [List.foldl]
        exact foldl_dedupStep_ne_nil xs (dedupStep [] x) (dedupStep_ne_nil [] x)
      exact absurd h this
    · intro h; cases h

/-- `countGtMatch` is irreflexive. -/
theorem countGtMatch_irrefl (a : SelectionMatch) : countGtMatch a a = false := by
  simp [countGtMatch]

/-- `countGtMatch` is transitive. -/
theorem countGtMatch_trans (a b c : SelectionMatch) (h1 : countGtMatch a b = true)
    (h2 : countGtMatch b c = true) : countGtMatch a c = true := by
  simp only [countGtMatch, decide_eq_true_eq] at h1 h2 ⊢
  omega

/-- The negation of `countGtMatch` is transitive. -/
theorem countGtMatch_ntrans (a b c : SelectionMatch) (h1 : countGtMatch a b = false)
    (h2 : countGtMatch b c = false) : countGtMatch a c = false := by
  simp only [countGtMatch, decide_eq_false_iff_not, not_lt] at h1 h2 ⊢
  omega

/-- C5: whenever the selector detector returns a result, its confidence is
`min(0.99, 0.65 + 0.1 × n)` (in hundredths) for `n` the number of
deduplicated URLs of the winning probe — which is the probe with the most
matches — and it returns `none` exactly when every catalog probe yields zero
URLs.  The spec's scenario markup of three PDF anchors yields exactly those
three URLs, confidence 0.95 and the nonempty selector `a[href*=".pdf"]`. -/
theorem detectWithSelectors_spec :
    (∀ (elements : List Element) (r : DiscoveryResult),
       detectWithSelectors elements = some r →
       r.confidence = min 99 (65 + r.pdfUrls.length * 10) ∧
       ∃ m ∈ selectorMatches elements,
         r.pdfUrls = m.urls ∧ r.selector = some m.selector ∧ m.count = m.urls.length ∧
         ∀ m' ∈ selectorMatches elements, m'.count ≤ m.count) ∧
    (∀ elements : List Element,
       detectWithSelectors elements = none ↔
       ∀ sel ∈ COMMON_SELECTORS, probeUrls elements sel = []) ∧
    detectWithSelectors scenarioElems =
      some { strategy := .selector,
             pdfUrls := ["/pdf/page1.pdf", "/pdf/page2.pdf", "/pdf/page3.pdf"],
             confidence := 95,
             selector := some "a[href*=\".pdf\"]" } := by
  refine ⟨?_, ?_, by decide⟩
  · intro elements r h
    cases hb : firstMax countGtMatch (selectorMatches elements) with
    | none =>
      simp only [detectWithSelectors, hb] at h
      exact Option.noConfusion h
    | some m =>
      simp only [detectWithSelectors, hb, Option.some_inj] at h
      have hmem := firstMax_mem countGtMatch _ m hb
      have hmax := firstMax_max countGtMatch countGtMatch_irrefl countGtMatch_trans
        countGtMatch_ntrans _ m hb
      have hcount : m.count = m.urls.length := by
        obtain ⟨sel, hsel, hfn⟩ := List.mem_filterMap.mp hmem
        by_cases hpos : 0 < (dedupFirst (probeUrls elements sel)).length
        · rw [selectorMatch, if_pos hpos] at hfn
          obtain rfl := Option.some_inj.mp hfn
          rfl
        · rw [selectorMatch, if_neg hpos] at hfn
          exact Option.noConfusion hfn
      subst h
      refine ⟨by simp [hcount], m, hmem, rfl, rfl, hcount, ?_⟩
      intro m' hm'
      have := hmax m' hm'
      simpa [countGtMatch, not_lt] using this
  · intro elements
    constructor
    · intro h sel hsel
      have hnone : firstMax countGtMatch (selectorMatches elements) = none := by
        cases hb : firstMax countGtMatch (selectorMatches elements) with
        | none => rfl
        | some m =>
          simp only [detectWithSelectors, hb] at h
          exact Option.noConfusion h
      have hmat : selectorMatches elements = [] := (firstMax_eq_none_iff _ _).mp hnone
      have hnone' : selectorMatch elements sel = none := by
        cases hm : selectorMatch elements sel with
        | none => rfl
        | some m =>
          have : m ∈ selectorMatches elements := List.mem_filterMap.mpr ⟨sel, hsel, hm⟩
          rw [hmat] at this
          cases this
      by_contra hne
      have hlen : 0 < (dedupFirst (probeUrls elements sel)).length := by
        have hd : dedupFirst (probeUrls elements sel) ≠ [] := by
          intro hnil
          exact hne ((dedupFirst_eq_nil_iff _).mp hnil)
        exact List.length_pos.mpr hd
      rw [selectorMatch, if_pos hlen] at hnone'
      exact Option.noConfusion hnone'
    · intro hall
      have hmat : selectorMatches elements = [] := by
        rw [selectorMatches, List.filterMap_eq_nil_iff]
        intro sel hsel
        rw [selectorMatch]
        simp [hall sel hsel, dedupFirst]
      simp only [detectWithSelectors, (firstMax_eq_none_iff countGtMatch _).mpr hmat]

/-- Witness for C5 at the scenario elements. -/
theorem detectWithSelectors_spec_witness :
    ∃ m ∈ selectorMatches scenarioElems,
      (["/pdf/page1.pdf", "/pdf/page2.pdf", "/pdf/page3.pdf"] : List String) = m.urls ∧
      (some "a[href*=\".pdf\"]" : Option String) = some m.selector ∧
      m.count = m.urls.length ∧
      ∀ m' ∈ selectorMatches scenarioElems, m'.count ≤ m.count :=
  (detectWithSelectors_spec.1 scenarioElems
    { strategy := .selector,
      pdfUrls := ["/pdf/page1.pdf", "/pdf/page2.pdf", "/pdf/page3.pdf"],
      confidence := 95,
      selector := some "a[href*=\".pdf\"]" } (by decide)).2

/-! ## C6 — the pattern detector -/

/-- Tally entries stay positive through one step. -/
theorem tallyStep_counts_pos (acc : List (String × Nat)) (s : String)
    (h : ∀ kv ∈ acc, 1 ≤ kv.2) : ∀ kv ∈ tallyStep acc s, 1 ≤ kv.2 := by
  intro kv hkv
  unfold tallyStep at hkv
  by_cases hc : acc.any (fun kv => kv.1 == s) = true
  · rw [if_pos hc] at hkv
    obtain ⟨kv', hkv', hmap⟩ := List.mem_map.mp hkv
    by_cases he : (kv'.1 == s) = true
    · rw [if_pos he] at hmap
      rw [← hmap]
      exact Nat.le_add_left 1 kv'.2
    · rw [if_neg he] at hmap
      rw [← hmap]
      exact h kv' hkv'
  · rw [if_neg hc] at hkv
    rcases List.mem_append.mp hkv with h1 | h1
    · exact h kv h1
    · rcases List.mem_singleton.mp h1 with rfl
      exact le_refl 1

/-- Every entry of the frequency table has count at least one. -/
theorem tally_counts_pos (keys : List String) : ∀ kv ∈ tally keys, 1 ≤ kv.2 := by
  have aux : ∀ (ks : List String) (acc : List (String × Nat)),
      (∀ kv ∈ acc, 1 ≤ kv.2) → ∀ kv ∈ ks.foldl tallyStep acc, 1 ≤ kv.2 := by
    intro ks
    induction ks with
    | nil => intro acc h; exact h
    | cons k ks ih =>
      intro acc h
      exact ih (tallyStep acc k) (tallyStep_counts_pos acc k h)
  exact aux keys [] (by intro kv hkv; cases hkv)

/-- One tally step never empties the table. -/
theorem tallyStep_ne_nil (acc : List (String × Nat)) (s : String) : tallyStep acc s ≠ [] := by
  unfold tallyStep
  by_cases hc : acc.any (fun kv => kv.1 == s) = true
  · rw [if_pos hc]
    intro hnil
    rw [List.map_eq_nil_iff] at hnil
    rw [hnil] at hc
    simp at hc
  · rw [if_neg hc]
    simp

/-- The frequency table of a nonempty key list is nonempty. -/
theorem tally_ne_nil (keys : List String) (h : keys ≠ []) : tally keys ≠ [] := by
  have aux : ∀ (ks : List String) (acc : List (String × Nat)),
      acc ≠ [] → ks.foldl tallyStep acc ≠ [] := by
    intro ks
    induction ks with
    | nil => intro acc h; exact h
    | cons k ks ih => intro acc _; exact ih (tallyStep acc k) (tallyStep_ne_nil acc k)
  cases keys with
  | nil => exact absurd rfl h
  | cons k ks =>
    show (k :: ks).foldl tallyStep [] ≠ []
    simp only [List.foldl]
    exact aux ks (tallyStep [] k) (tallyStep_ne_nil [] k)

/-- The `maxCount` scan: its result is the initial pair or a table entry, it
dominates the initial count, and it dominates every table entry. -/
theorem foldl_bestTally_spec :
    ∀ (l : List (String × Nat)) (init : String × Nat),
      (l.foldl (fun best kv => if best.2 < kv.2 then kv else best) init = init ∨
        l.foldl (fun best kv => if best.2 < kv.2 then kv else best) init ∈ l) ∧
      init.2 ≤ (l.foldl (fun best kv => if best.2 < kv.2 then kv else best) init).2 ∧
      ∀ kv ∈ l, kv.2 ≤ (l.foldl (fun best kv => if best.2 < kv.2 then kv else best) init).2 := by
  intro l
  induction l with
  | nil =>
    intro init
    refine ⟨Or.inl rfl, le_refl _, ?_⟩
    intro kv hkv
    cases hkv
  | cons kv0 l ih =>
    intro init
    simp only [List.foldl]
    by_cases hlt : init.2 < kv0.2
    · rw [if_pos hlt]
      obtain ⟨hmem, hinit, hall⟩ := ih kv0
      refine ⟨?_, ?_, ?_⟩
      · rcases hmem with h | h
        · exact Or.inr (by rw [h]; exact List.mem_cons_self kv0 l)
        · exact Or.inr (List.mem_cons_of_mem _ h)
      · exact le_trans (le_of_lt hlt) hinit
      · intro kv hkv
        rcases List.mem_cons.mp hkv with rfl | hkv'
        · exact hinit
        · exact hall kv hkv'
    · rw [if_neg hlt]
      obtain ⟨hmem, hinit, hall⟩ := ih init
      refine ⟨?_, hinit, ?_⟩
      · rcases hmem with h | h
        · exact Or.inl h
        · exact Or.inr (List.mem_cons_of_mem _ h)
      · intro kv hkv
        rcases List.mem_cons.mp hkv with rfl | hkv'
        · exact le_trans (not_lt.mp hlt) hinit
        · exact hall kv hkv'

/-- `findPattern` returns a pattern only from at least two URLs, and the
returned pattern is the most common simplified form, covering at least half
of the URLs. -/
theorem findPattern_spec (urls : List String) (p : String)
    (h : findPattern urls = some p) :
    2 ≤ urls.length ∧
    ∃ cnt, (p, cnt) ∈ tally (urls.map simplifiedPath) ∧
      (∀ kv ∈ tally (urls.map simplifiedPath), kv.2 ≤ cnt) ∧
      urls.length ≤ 2 * cnt := by
  simp only [findPattern, mostCommonTally] at h
  split_ifs at h with h2 hc
  obtain rfl := Option.some_inj.mp h
  obtain ⟨hmem, -, hall⟩ := foldl_bestTally_spec (tally (urls.map simplifiedPath)) ("", 0)
  have hne : tally (urls.map simplifiedPath) ≠ [] := by
    apply tally_ne_nil
    intro hnil
    rw [List.map_eq_nil_iff] at hnil
    rw [hnil] at h2
    simp at h2
  obtain ⟨kv0, hkv0⟩ := List.exists_mem_of_ne_nil _ hne
  have hpos : 1 ≤ (List.foldl (fun best kv => if best.2 < kv.2 then kv else best) ("", 0)
      (tally (urls.map simplifiedPath))).2 :=
    le_trans (tally_counts_pos _ kv0 hkv0) (hall kv0 hkv0)
  have hmem' : (List.foldl (fun best kv => if best.2 < kv.2 then kv else best) ("", 0)
      (tally (urls.map simplifiedPath))) ∈ tally (urls.map simplifiedPath) := by
    rcases hmem with he | he
    · rw [he] at hpos
      cases hpos
    · exact he
  refine ⟨by omega, _, ?_, hall, hc⟩
  simpa using hmem'

/-- C6: whenever the pattern detector returns a result, its confidence is
`min(0.95, 0.5 + 0.05 × n)` (in hundredths) for `n` the number of validated
deduplicated URLs, raised by a further 0.15 and re-capped at 0.95 exactly
when a pattern was inferred; a pattern is inferred only when `n ≥ 2` and the
most common placeholder form covers at least 50% of the URLs; and the
detector returns `none` exactly when no URL survives validation. -/
theorem detectWithPatterns_spec :
    (∀ (potentialUrls : List String) (r : DiscoveryResult),
       detectWithPatterns potentialUrls = some r →
       (r.pattern = none → r.confidence = min 95 (50 + r.pdfUrls.length * 5)) ∧
       (r.pattern ≠ none →
         r.confidence = min 95 (min 95 (50 + r.pdfUrls.length * 5) + 15))) ∧
    (∀ (potentialUrls : List String) (r : DiscoveryResult) (p : String),
       detectWithPatterns potentialUrls = some r → r.pattern = some p →
       2 ≤ r.pdfUrls.length ∧
       ∃ cnt, (p, cnt) ∈ tally (r.pdfUrls.map simplifiedPath) ∧
         (∀ kv ∈ tally (r.pdfUrls.map simplifiedPath), kv.2 ≤ cnt) ∧
         r.pdfUrls.length ≤ 2 * cnt) ∧
    (∀ potentialUrls : List String,
       detectWithPatterns potentialUrls = none ↔
       potentialUrls.filterMap cleanUrl = []) := by
  refine ⟨?_, ?_, ?_⟩
  · intro potentialUrls r h
    simp only [detectWithPatterns] at h
    split_ifs at h with hz
    obtain rfl := Option.some_inj.mp h
    cases hp : findPattern (dedupFirst (potentialUrls.filterMap cleanUrl)) with
    | none => simp [calculateConfidence, hp]
    | some q => simp [calculateConfidence, hp]
  · intro potentialUrls r p h hp
    simp only [detectWithPatterns] at h
    split_ifs at h with hz
    obtain rfl := Option.some_inj.mp h
    exact findPattern_spec _ p hp
  · intro potentialUrls
    simp only [detectWithPatterns]
    by_cases hz : ((dedupFirst (potentialUrls.filterMap cleanUrl)).length == 0) = true
    · rw [if_pos hz]
      simp only [beq_iff_eq, List.length_eq_zero] at hz
      simp [(dedupFirst_eq_nil_iff _).mp hz]
    · rw [if_neg hz]
      simp only [beq_iff_eq, List.length_eq_zero] at hz
      constructor
      · intro hc
        exact Option.noConfusion hc
      · intro hc
        exfalso
        apply hz
        rw [hc]
        rfl

/-- Witness for C6 at the two-URL fixture whose simplified paths agree. -/
theorem detectWithPatterns_spec_witness :
    2 ≤ (["/doc_a1.pdf", "/doc_b2.pdf"] : List String).length ∧
    ∃ cnt,
      ("/VARN.pdf", cnt)
          ∈ tally ((["/doc_a1.pdf", "/doc_b2.pdf"] : List String).map simplifiedPath) ∧
      (∀ kv ∈ tally ((["/doc_a1.pdf", "/doc_b2.pdf"] : List String).map simplifiedPath),
        kv.2 ≤ cnt) ∧
      (["/doc_a1.pdf", "/doc_b2.pdf"] : List String).length ≤ 2 * cnt :=
  detectWithPatterns_spec.2.1 patternUrls
    { strategy := .pattern, pdfUrls := ["/doc_a1.pdf", "/doc_b2.pdf"],
      pattern := some "/VARN.pdf", confidence := 75 } "/VARN.pdf" (by decide) rfl

/-! ## C7 — the facade's strategy dispatch -/

/-- C7 counterexample: for a `javascript`-kind adapter the facade runs the
static anchor extraction on the fetched markup, not the headless-browser
strategy: on a page whose static markup holds `/static.pdf` while the
rendered page would yield `/dynamic.pdf`, the facade returns the static URL,
and the dynamic strategy's own result on that page differs. -/
theorem facade_javascript_uses_static_extraction :
    getPdfUrlsWithAdapters (some jsAdapter) (.ok staticElems) (.ok staticElems) [] [] =
      .ok { pdfUrls := ["/static.pdf"], adapter := some jsAdapter, source := "adapter" } ∧
    detectWithJavaScript ["/dynamic.pdf"] [] =
      some { strategy := .javascript, pdfUrls := ["/dynamic.pdf"], confidence := 87 } ∧
    (["/static.pdf"] : List String) ≠ ["/dynamic.pdf"] :=
  ⟨by decide, by decide, by decide⟩

/-- C7 amended: the facade re-applies the stored selector or pattern for
adapters of those kinds, but for a `javascript`-kind adapter it applies the
default static extraction `getPdfUrlsFromHtml` to the freshly fetched page
(falling back to default scraping on zero yield) — it does not re-run the
dynamic headless-browser strategy. -/
theorem facade_strategy_dispatch_spec :
    (∀ (adapter : Adapter) (elements : List Element)
       (refetch : Except String (List Element)) (selUrls patUrls : List String),
       adapter.strategy = .javascript →
       getPdfUrlsWithAdapters (some adapter) (.ok elements) refetch selUrls patUrls =
         if 0 < (dedupFirst (getPdfUrlsFromHtml elements)).length then
           .ok { pdfUrls := dedupFirst (getPdfUrlsFromHtml elements),
                 adapter := some adapter,
                 source := "adapter" }
         else facadeDefault refetch) ∧
    (∀ (adapter : Adapter) (elements : List Element) (selUrls patUrls : List String)
       (u : String), adapter.strategy = .selector → adapter.selector = some u →
       facadeAdapterUrls adapter elements selUrls patUrls = selUrls) ∧
    (∀ (adapter : Adapter) (elements : List Element) (selUrls patUrls : List String)
       (u : String), adapter.strategy = .pattern → adapter.pattern = some u →
       facadeAdapterUrls adapter elements selUrls patUrls = patUrls) := by
  refine ⟨?_, ?_, ?_⟩
  · intro adapter elements refetch selUrls patUrls hjs
    have hurls : facadeAdapterUrls adapter elements selUrls patUrls
        = getPdfUrlsFromHtml elements := by
      simp only [facadeAdapterUrls, hjs]
      rfl
    simp only [getPdfUrlsWithAdapters, hurls]
  · intro adapter elements selUrls patUrls u hsel hu
    simp only [facadeAdapterUrls, hsel, hu]
    rfl
  · intro adapter elements selUrls patUrls u hpat hu
    simp only [facadeAdapterUrls, hpat, hu]
    rfl

/-- Witness for C7's amended theorem at the concrete fixtures. -/
theorem facade_strategy_dispatch_spec_witness :
    getPdfUrlsWithAdapters (some jsAdapter) (.ok staticElems) (.ok staticElems) [] [] =
      (if 0 < (dedupFirst (getPdfUrlsFromHtml staticElems)).length then
        Except.ok { pdfUrls := dedupFirst (getPdfUrlsFromHtml staticElems),
                    adapter := some jsAdapter, source := "adapter" }
       else facadeDefault (.ok staticElems)) ∧
    facadeAdapterUrls selAdapter staticElems ["/sel.pdf"] [] = ["/sel.pdf"] :=
  ⟨facade_strategy_dispatch_spec.1 jsAdapter staticElems (.ok staticElems) [] [] rfl,
   facade_strategy_dispatch_spec.2.1 selAdapter staticElems ["/sel.pdf"] [] "a.pdf-link"
     rfl rfl⟩

/-! ## C8 — fetch failures propagate through the facade -/

/-- C8 counterexample: a transient network failure during the facade's page
fetch is not degraded to an absence-of-result: the outer catch logs and
rethrows, so the caller receives the exception. -/
theorem facade_fetch_error_propagates :
    getPdfUrlsWithAdapters (some selAdapter) (.error "network timeout")
      (.error "network timeout") [] [] = .error "network timeout" := rfl

/-- C8 amended: a fetch failure on whichever path the facade takes — the
adapter branch's fetch or the default branch's refetch — is caught, logged
and rethrown by `getPdfUrlsWithAdapters`: the caller receives the same
error, not a typed absence-of-result. -/
theorem facade_fetch_error_spec :
    ∀ (adapterLookup : Option Adapter) (selUrls patUrls : List String) (e : String),
      getPdfUrlsWithAdapters adapterLookup (.error e) (.error e) selUrls patUrls =
        .error e := by
  intro adapterLookup selUrls patUrls e
  cases adapterLookup with
  | none => rfl
  | some a => rfl

/-! ## C9 — the adapter store load never throws -/

/-- C9: `loadAdapters` is a total function into `AdapterStore` — in the
embedding a thrown exception would have to be an `Except`-typed result, and
the return type has none — and both a missing/unreadable file and contents
that fail to parse yield the empty collection `{version: "1.0",
adapters: []}`. -/
theorem loadAdapters_spec :
    (∀ (parseJson : String → Except String AdapterStore) (e : String),
       loadAdapters (.error e) parseJson = { version := "1.0", adapters := [] }) ∧
    (∀ (parseJson : String → Except String AdapterStore) (content e : String),
       parseJson content = .error e →
       loadAdapters (.ok content) parseJson = { version := "1.0", adapters := [] }) := by
  constructor
  · intro parseJson e
    rfl
  · intro parseJson content e h
    simp only [loadAdapters, h]

/-- Witness for C9: unparseable contents yield the empty store. -/
theorem loadAdapters_spec_witness :
    loadAdapters (.ok "not json") (fun _ => .error "Unexpected token") =
      { version := "1.0", adapters := [] } :=
  loadAdapters_spec.2 (fun _ => .error "Unexpected token") "not json" "Unexpected token" rfl

/-! ## C10 — the orchestrator's confidence floor is vacuous -/

/-- C10: every result any of the three detectors can return has confidence
at least 0.55 — selector results at least 0.75, pattern results at least
0.55, javascript results at least 0.87 (hundredths), each formula's base
applying from one URL upward — so the orchestrator's 0.5 floor never
discards a detector result: on any list of such results the filter is the
identity. -/
theorem detector_confidence_floor_vacuous :
    (∀ (elements : List Element) (r : DiscoveryResult),
       detectWithSelectors elements = some r → 75 ≤ r.confidence) ∧
    (∀ (potentialUrls : List String) (r : DiscoveryResult),
       detectWithPatterns potentialUrls = some r → 55 ≤ r.confidence) ∧
    (∀ (evalUrls textPdfs : List String) (r : DiscoveryResult),
       detectWithJavaScript evalUrls textPdfs = some r → 87 ≤ r.confidence) ∧
    (∀ results : List DiscoveryResult,
       (∀ r ∈ results, 55 ≤ r.confidence) → validResults results = results) := by
  refine ⟨?_, ?_, ?_, ?_⟩
  · intro elements r h
    cases hb : firstMax countGtMatch (selectorMatches elements) with
    | none =>
      simp only [detectWithSelectors, hb] at h
      exact Option.noConfusion h
    | some m =>
      simp only [detectWithSelectors, hb, Option.some_inj] at h
      have hmem := firstMax_mem countGtMatch _ m hb
      have hcount : 1 ≤ m.count := by
        obtain ⟨sel, hsel, hfn⟩ := List.mem_filterMap.mp hmem
        by_cases hpos : 0 < (dedupFirst (probeUrls elements sel)).length
        · rw [selectorMatch, if_pos hpos] at hfn
          obtain rfl := Option.some_inj.mp hfn
          exact hpos
        · rw [selectorMatch, if_neg hpos] at hfn
          exact Option.noConfusion hfn
      subst h
      show 75 ≤ min 99 (65 + m.count * 10)
      omega
  · intro potentialUrls r h
    simp only [detectWithPatterns] at h
    split_ifs at h with hz
    obtain rfl := Option.some_inj.mp h
    have hlen : 1 ≤ (dedupFirst (potentialUrls.filterMap cleanUrl)).length := by
      simp only [beq_iff_eq] at hz
      omega
    show 55 ≤ calculateConfidence (dedupFirst (potentialUrls.filterMap cleanUrl))
      (findPattern (dedupFirst (potentialUrls.filterMap cleanUrl)))
    unfold calculateConfidence
    cases findPattern (dedupFirst (potentialUrls.filterMap cleanUrl)) with
    | none => simp only; omega
    | some q => simp only; omega
  · intro evalUrls textPdfs r h
    simp only [detectWithJavaScript] at h
    split_ifs at h with hz
    obtain rfl := Option.some_inj.mp h
    have hlen : 1 ≤ (dedupFirst (evalUrls ++ textPdfs)).length := by
      simp only [beq_iff_eq] at hz
      omega
    show 87 ≤ min 98 (85 + (dedupFirst (evalUrls ++ textPdfs)).length * 2)
    omega
  · intro results hall
    rw [validResults, List.filter_eq_self]
    intro r hr
    simp only [decide_eq_true_eq, ge_iff_le, MINIMUM_CONFIDENCE]
    have := hall r hr
    omega

/-- Witness for C10 at concrete detector runs and a concrete result list. -/
theorem detector_confidence_floor_vacuous_witness :
    (75 : ℕ) ≤ 95 ∧ (55 : ℕ) ≤ 75 ∧ (87 : ℕ) ≤ 87 ∧
    validResults [tieSel, tiePat, tieJs] = [tieSel, tiePat, tieJs] :=
  ⟨detector_confidence_floor_vacuous.1 scenarioElems
      { strategy := .selector,
        pdfUrls := ["/pdf/page1.pdf", "/pdf/page2.pdf", "/pdf/page3.pdf"],
        confidence := 95, selector := some "a[href*=\".pdf\"]" } (by decide),
    detector_confidence_floor_vacuous.2.1 patternUrls
      { strategy := .pattern, pdfUrls := ["/doc_a1.pdf", "/doc_b2.pdf"],
        pattern := some "/VARN.pdf", confidence := 75 } (by decide),
    detector_confidence_floor_vacuous.2.2.1 ["/dynamic.pdf"] []
      { strategy := .javascript, pdfUrls := ["/dynamic.pdf"], confidence := 87 }
      (by decide),
    detector_confidence_floor_vacuous.2.2.2 [tieSel, tiePat, tieJs] (by decide)⟩

end ColoringBook
